import Mathlib

/-!
Verification of `src/util/Utils.cpp` from the wam repository: the localized
error-page path resolver `getErrorPagePaths` and the hostname extractor
`getHostname`, shallowly embedded over Lean strings and lists of characters.

External collaborators are injected as parameters:
* `boost::filesystem::canonical` (the single filesystem touch) becomes a
  parameter `canonical : String → Option String`, `none` modelling the
  exception it throws when the path does not exist;
* `BCP47::fromString` (declared in `BCP47.h`, implementation outside the
  sources at hand) becomes a parameter `fromString : String → Option BCP47`.

The two `std::regex` patterns of `getHostname` are embedded as deterministic
functions computing the unique match that ECMAScript preference semantics
(greedy quantifiers, leftmost alternative first, full-string `regex_match`)
assigns to those exact patterns; each piece of the code below cites the
pattern fragment it implements.
-/

namespace util

/-- Character class `\w` of ECMAScript `std::regex`: ASCII letters, digits
and the underscore. -/
def isWordChar (c : Char) : Bool :=
  c.isAlpha || c.isDigit || c == '_'

/-- Character class `[\w\:]` from the userinfo part of `authorityRegex`. -/
def isWordColon (c : Char) : Bool :=
  isWordChar c || c == ':'

/-- Character class `[\w.]` from the host part of `authorityRegex`. -/
def isWordDot (c : Char) : Bool :=
  isWordChar c || c == '.'

/-- Character class `[^:\/?#]` (scheme characters) of the RFC 3986
appendix-B pattern. -/
def notSchemeDelim (c : Char) : Bool :=
  !(c == ':') && !(c == '/') && !(c == '?') && !(c == '#')

/-- Character class `[^\/?#]` (authority characters) of the RFC 3986
appendix-B pattern. -/
def notAuthDelim (c : Char) : Bool :=
  !(c == '/') && !(c == '?') && !(c == '#')

/-- Character class `[^?#]` (path characters) of the RFC 3986 appendix-B
pattern. -/
def notPathDelim (c : Char) : Bool :=
  !(c == '?') && !(c == '#')

/-- Character class `[^#]` (query characters) of the RFC 3986 appendix-B
pattern. -/
def notHash (c : Char) : Bool :=
  !(c == '#')

/-- Line terminators excluded by `.` in ECMAScript `std::regex` over
`char`-based strings. -/
def isLineTerm (c : Char) : Bool :=
  c == '\n' || c == '\r'

/-- Full-string match of
`^(([^:\/?#]+):)?(\/\/([^\/?#]*))?([^?#]*)(\?([^#]*))?(#(.*))?`
(the `rfc3986Regex` of `getHostname`) against `l`, returning the fourth
capture group (the authority) of the preferred ECMAScript parse, or `none`
when `std::regex_match` fails.  An unmatched authority group yields `[]`,
as `matches[4]` converts an unmatched group to the empty string.

The greedy scheme group `(([^:\/?#]+):)?` can only take the maximal run of
`[^:\/?#]` characters (a shorter run would be followed by another such
character, never by the required `:`); likewise the authority group takes
the maximal run of `[^\/?#]` after a literal `//`.  The trailing
`([^?#]*)(\?([^#]*))?(#(.*))?` consumes the rest of the string, failing
exactly when the fragment — the suffix after the first `#`, a character no
earlier class admits — contains a line terminator, which `.` cannot match;
that failure condition does not depend on whether the optional scheme and
authority groups participated, so no backtracking into them succeeds. -/
def rfc3986Match (l : List Char) : Option (List Char) :=
  let schemeRun := l.takeWhile notSchemeDelim
  let s1 :=
    if schemeRun.length > 0 then
      match l.drop schemeRun.length with
      | ':' :: r => r
      | _ => l
    else l
  let authority :=
    match s1 with
    | '/' :: '/' :: r => some (r.takeWhile notAuthDelim)
    | _ => none
  let s2 :=
    match s1 with
    | '/' :: '/' :: r => r.drop (r.takeWhile notAuthDelim).length
    | _ => s1
  let s3 := s2.dropWhile notPathDelim
  let ok :=
    match s3 with
    | [] => true
    | '?' :: r =>
      match r.dropWhile notHash with
      | [] => true
      | _ :: f => f.all fun c => !(isLineTerm c)
    | '#' :: f => f.all fun c => !(isLineTerm c)
    | _ => false
  if ok then some (authority.getD []) else none

/-- Match of `([\w.]+)(?:[:])?(?:[0-9]+)?` against all of `s` (the part of
`authorityRegex` after the optional userinfo), returning the captured host.
The greedy host class takes the maximal run of `[\w.]`; what remains must
be empty, or a `:` followed by an optional run of digits reaching the end
of the string. -/
def hostTail (s : List Char) : Option (List Char) :=
  let h := s.takeWhile isWordDot
  if h.length == 0 then none
  else
    match s.drop h.length with
    | [] => some h
    | ':' :: r => if r.all Char.isDigit then some h else none
    | _ => none

/-- Full-string match of `^(?:[\w\:]+[@])?([\w.]+)(?:[:])?(?:[0-9]+)?`
(the `authorityRegex` of `getHostname`) against `a`, returning the first
capture group (the host), or `none` when `std::regex_match` fails.  The
userinfo group `(?:[\w\:]+[@])?` can only take the maximal run of `[\w\:]`
followed by a literal `@`; it is tried first, and on failure of the rest
the engine falls back to skipping it. -/
def authorityMatch (a : List Char) : Option (List Char) :=
  let u := a.takeWhile isWordColon
  let withUser :=
    if u.length > 0 then
      match a.drop u.length with
      | '@' :: r => hostTail r
      | _ => none
    else none
  match withUser with
  | some h => some h
  | none => hostTail a

/-- Embedding of `util::getHostname` from `src/util/Utils.cpp`: empty input
returns the empty string; otherwise the URL is decomposed by
`rfc3986Regex`, its authority group is matched against `authorityRegex`,
and the captured host is returned; any failed match returns the empty
string. -/
def getHostname (url : String) : String :=
  if url = "" then ""
  else
    match rfc3986Match url.data with
    | none => ""
    | some authority =>
      match authorityMatch authority with
      | none => ""
      | some host => ⟨host⟩

/-- Decomposed BCP47 language tag, as exposed by `BCP47.h`: a mandatory
language subtag with optional script and region subtags.  The `script()` /
`region()` accessors are only consulted after the corresponding `has*`
predicate, so storing them as options is faithful. -/
structure BCP47 where
  language : String
  script : Option String
  region : Option String
deriving Repr, DecidableEq

/-- The `hasScript()` predicate of the decomposed BCP47 tag. -/
def BCP47.hasScript (t : BCP47) : Bool := t.script.isSome

/-- The `hasRegion()` predicate of the decomposed BCP47 tag. -/
def BCP47.hasRegion (t : BCP47) : Bool := t.region.isSome

/-- The `script()` accessor (meaningful only when `hasScript`). -/
def BCP47.scriptStr (t : BCP47) : String := t.script.getD ""

/-- The `region()` accessor (meaningful only when `hasRegion`). -/
def BCP47.regionStr (t : BCP47) : String := t.region.getD ""

/-- Models `boost::filesystem::path::filename()` on POSIX paths: the last
element of the path — the maximal run of non-separator characters at the
end; a path ending in a separator has the implicit dot element as its
filename, except a path consisting only of separators, whose filename is
the root `/`. -/
def pathFilename (p : String) : String :=
  let after := (p.data.reverse.takeWhile fun c => !(c == '/')).reverse
  if after.isEmpty then
    if p = "" then "" else if p.data.all fun c => c == '/' then "/" else "."
  else ⟨after⟩

/-- Models `boost::filesystem::path::parent_path()` on POSIX paths: the
path with its last element removed — strip the trailing run of
non-separator characters, then the separators before it, keeping a sole
root `/` when everything else is stripped. -/
def pathParent (p : String) : String :=
  let r := p.data.reverse.dropWhile fun c => !(c == '/')
  let r2 := r.dropWhile fun c => c == '/'
  if r2.isEmpty then
    if r.isEmpty then "" else "/"
  else ⟨r2.reverse⟩

/-- Embedding of `util::getErrorPagePaths` from `src/util/Utils.cpp`.

`canonical` stands for `boost::filesystem::canonical` applied to the
parent path (`none` modelling the exception thrown when the directory does
not exist; a `none` result of the whole function models that exception
propagating).  `fromString` stands for `BCP47::fromString`.  The candidate
list is built exactly as in the source: when a tag parsed, a
script(+region) candidate if `hasScript()`, a region candidate if
`hasRegion()`, and a language candidate unconditionally; then always the
generic `resources/html` candidate and the original location. -/
def getErrorPagePaths (canonical : String → Option String)
    (fromString : String → Option BCP47)
    (errorPageLocation language : String) : Option (List String) :=
  if errorPageLocation = "" then some []
  else
    let filename := pathFilename errorPageLocation
    match canonical (pathParent errorPageLocation) with
    | none => none
    | some searchPath =>
      let tagged : List String :=
        match fromString language with
        | some t =>
          (if t.hasScript then
            [searchPath ++ "/resources/" ++ t.language ++ "/" ++ t.scriptStr
              ++ (if t.hasRegion then "/" ++ t.regionStr else "")
              ++ "/html/" ++ filename]
           else [])
          ++ (if t.hasRegion then
            [searchPath ++ "/resources/" ++ t.language ++ "/"
              ++ t.regionStr ++ "/html/" ++ filename]
           else [])
          ++ [searchPath ++ "/resources/" ++ t.language ++ "/html/" ++ filename]
        | none => []
      some (tagged
        ++ [searchPath ++ "/resources/html/" ++ filename]
        ++ [errorPageLocation])

/-! Fixtures used by the witness theorems: a concrete canonicalization
function (the parent of `/base/pages/error.html` resolves to
`/canon/pages`, anything else fails) and concrete BCP47 parser results. -/

/-- Concrete canonicalization fixture for witnesses. -/
def canonFix : String → Option String :=
  fun s => if s = "/base/pages" then some "/canon/pages" else none

/-- BCP47 parser fixture that parses nothing. -/
def parseNoneFix : String → Option BCP47 := fun _ => none

/-- BCP47 parser fixture decomposing `zh-Hant-TW`. -/
def parseZhFix : String → Option BCP47 :=
  fun s => if s = "zh-Hant-TW" then some ⟨"zh", some "Hant", some "TW"⟩ else none

/-- BCP47 parser fixture decomposing `en-US`. -/
def parseEnFix : String → Option BCP47 :=
  fun s => if s = "en-US" then some ⟨"en", none, some "US"⟩ else none

/-- Every character of a host captured by `hostTail` lies in the `[\w.]`
class, since the capture is a `takeWhile isWordDot`. -/
theorem hostTail_chars {s h : List Char} (hh : hostTail s = some h) :
    ∀ c ∈ h, isWordDot c := by
  intro c hc
  unfold hostTail at hh
  dsimp only at hh
  split at hh
  · cases hh
  · split at hh
    · cases hh
      exact List.mem_takeWhile_imp hc
    · split at hh
      · cases hh
        exact List.mem_takeWhile_imp hc
      · cases hh
    · cases hh

/-- Every character of a host captured by `authorityMatch` lies in the
`[\w.]` class, whether or not the userinfo branch participated. -/
theorem authorityMatch_chars {a h : List Char} (hm : authorityMatch a = some h) :
    ∀ c ∈ h, isWordDot c := by
  unfold authorityMatch at hm
  dsimp only at hm
  split at hm
  · rename_i h' heq
    cases hm
    split at heq
    · split at heq
      · exact hostTail_chars heq
      · cases heq
    · cases heq
  · rename_i heq
    exact hostTail_chars hm

/-- Claim C1: for every non-empty `basePath` whose parent directory
canonicalizes and every language tag the BCP47 parser rejects,
`getErrorPagePaths` returns exactly the generic candidate
`dir/resources/html/filename` followed by the original `basePath`. -/
theorem getErrorPagePaths_unparseable_tag
    (canonical : String → Option String) (fromString : String → Option BCP47)
    (b tag d : String) (hb : b ≠ "")
    (hd : canonical (pathParent b) = some d) (ht : fromString tag = none) :
    getErrorPagePaths canonical fromString b tag =
      some [d ++ "/resources/html/" ++ pathFilename b, b] := by
  simp [getErrorPagePaths, hb, hd, ht]

/-- Claim C1 witness: the two-candidate result at a concrete base path and
an unparseable tag. -/
theorem getErrorPagePaths_unparseable_tag_witness :
    getErrorPagePaths canonFix parseNoneFix "/base/pages/error.html" "bogus" =
      some ["/canon/pages/resources/html/error.html", "/base/pages/error.html"] :=
  getErrorPagePaths_unparseable_tag canonFix parseNoneFix
    "/base/pages/error.html" "bogus" "/canon/pages"
    (by decide) (by decide) (by decide)

/-- Claim C2: for every non-empty `basePath` whose parent directory
canonicalizes and every tag decomposing into language, script and region,
`getErrorPagePaths` returns exactly five candidates in specificity order:
script+region, region-only, language-only, generic, original path. -/
theorem getErrorPagePaths_full_tag
    (canonical : String → Option String) (fromString : String → Option BCP47)
    (b tag lang scr reg d : String) (hb : b ≠ "")
    (hd : canonical (pathParent b) = some d)
    (ht : fromString tag = some ⟨lang, some scr, some reg⟩) :
    getErrorPagePaths canonical fromString b tag =
      some [d ++ "/resources/" ++ lang ++ "/" ++ scr ++ "/" ++ reg ++ "/html/"
              ++ pathFilename b,
            d ++ "/resources/" ++ lang ++ "/" ++ reg ++ "/html/" ++ pathFilename b,
            d ++ "/resources/" ++ lang ++ "/html/" ++ pathFilename b,
            d ++ "/resources/html/" ++ pathFilename b,
            b] := by
  simp [getErrorPagePaths, hb, hd, ht, BCP47.hasScript, BCP47.hasRegion,
    BCP47.scriptStr, BCP47.regionStr, String.append_assoc]

/-- Claim C2 witness: the five-candidate result for the tag
`zh-Hant-TW` at a concrete base path. -/
theorem getErrorPagePaths_full_tag_witness :
    getErrorPagePaths canonFix parseZhFix "/base/pages/error.html" "zh-Hant-TW" =
      some ["/canon/pages/resources/zh/Hant/TW/html/error.html",
            "/canon/pages/resources/zh/TW/html/error.html",
            "/canon/pages/resources/zh/html/error.html",
            "/canon/pages/resources/html/error.html",
            "/base/pages/error.html"] :=
  getErrorPagePaths_full_tag canonFix parseZhFix
    "/base/pages/error.html" "zh-Hant-TW" "zh" "Hant" "TW" "/canon/pages"
    (by decide) (by decide) (by decide)

/-- Claim C3: for every non-empty `basePath` whose parent directory
canonicalizes and every tag decomposing into language and region without a
script, `getErrorPagePaths` returns exactly four candidates, the region
candidate `dir/resources/lang/reg/html/filename` preceding the
language-only and generic fallbacks. -/
theorem getErrorPagePaths_region_tag
    (canonical : String → Option String) (fromString : String → Option BCP47)
    (b tag lang reg d : String) (hb : b ≠ "")
    (hd : canonical (pathParent b) = some d)
    (ht : fromString tag = some ⟨lang, none, some reg⟩) :
    getErrorPagePaths canonical fromString b tag =
      some [d ++ "/resources/" ++ lang ++ "/" ++ reg ++ "/html/" ++ pathFilename b,
            d ++ "/resources/" ++ lang ++ "/html/" ++ pathFilename b,
            d ++ "/resources/html/" ++ pathFilename b,
            b] := by
  simp [getErrorPagePaths, hb, hd, ht, BCP47.hasScript, BCP47.hasRegion,
    BCP47.regionStr]

/-- Claim C3 witness: the four-candidate result for the tag `en-US` at a
concrete base path. -/
theorem getErrorPagePaths_region_tag_witness :
    getErrorPagePaths canonFix parseEnFix "/base/pages/error.html" "en-US" =
      some ["/canon/pages/resources/en/US/html/error.html",
            "/canon/pages/resources/en/html/error.html",
            "/canon/pages/resources/html/error.html",
            "/base/pages/error.html"] :=
  getErrorPagePaths_region_tag canonFix parseEnFix
    "/base/pages/error.html" "en-US" "en" "US" "/canon/pages"
    (by decide) (by decide) (by decide)

/-- Claim C4: an empty base path yields the empty candidate list for every
language tag, every canonicalization behaviour and every parser behaviour —
no error, and the filesystem capability is never consulted. -/
theorem getErrorPagePaths_empty_base
    (canonical : String → Option String) (fromString : String → Option BCP47)
    (tag : String) :
    getErrorPagePaths canonical fromString "" tag = some [] := rfl

/-- Claim C5: `getErrorPagePaths` fails (the canonicalization exception
propagates) exactly when the base path is non-empty and its parent
directory fails to canonicalize; the language tag plays no role in the
error condition. -/
theorem getErrorPagePaths_error_iff
    (canonical : String → Option String) (fromString : String → Option BCP47)
    (b tag : String) :
    getErrorPagePaths canonical fromString b tag = none ↔
      b ≠ "" ∧ canonical (pathParent b) = none := by
  by_cases hb : b = ""
  · subst hb; simp [getErrorPagePaths]
  · cases hc : canonical (pathParent b) <;>
      simp [getErrorPagePaths, hb, hc]

/-- Claim C6 counterexample: on the empty base path the function returns
normally with an empty list, whose length is below the claimed lower bound
of two. -/
theorem getErrorPagePaths_length_counterexample :
    getErrorPagePaths canonFix parseNoneFix "" "" = some [] ∧
      ¬ 2 ≤ ([] : List String).length := by
  decide

/-- Claim C6 amended: whenever `getErrorPagePaths` returns normally on a
non-empty base path, the candidate list has between two and five entries. -/
theorem getErrorPagePaths_length_bounds
    (canonical : String → Option String) (fromString : String → Option BCP47)
    (b tag : String) (r : List String) (hb : b ≠ "")
    (h : getErrorPagePaths canonical fromString b tag = some r) :
    2 ≤ r.length ∧ r.length ≤ 5 := by
  rw [getErrorPagePaths, if_neg hb] at h
  cases hc : canonical (pathParent b) <;> rw [hc] at h
  · cases h
  · cases ht : fromString tag <;> rw [ht] at h <;> dsimp only at h
    · cases h
      simp
    · rename_i t
      cases h
      cases hs : t.hasScript <;> cases hr : t.hasRegion <;>
        simp [hs, hr, List.length_append]

/-- Claim C6 amended witness: the bounds hold at a concrete non-empty base
path. -/
theorem getErrorPagePaths_length_bounds_witness :
    2 ≤ (["/canon/pages/resources/html/error.html",
          "/base/pages/error.html"] : List String).length ∧
      (["/canon/pages/resources/html/error.html",
        "/base/pages/error.html"] : List String).length ≤ 5 :=
  getErrorPagePaths_length_bounds canonFix parseNoneFix
    "/base/pages/error.html" "x"
    ["/canon/pages/resources/html/error.html", "/base/pages/error.html"]
    (by decide) (by decide)

/-- Claim C7: on the reference URL the extractor strips the scheme, the
userinfo, the port, the path, the query and the fragment, returning the
bare host. -/
theorem getHostname_reference_url :
    getHostname "https://user@example.com:8080/path?q=1#frag" = "example.com" := by
  decide

/-- Claim C8: the extractor is total and returns the empty string on empty
input, on the reference non-URI input, whenever the authority captured by
the RFC 3986 decomposition fails the authority-shape match, and in
particular the empty authority always fails that match. -/
theorem getHostname_degrades_to_empty :
    getHostname "" = "" ∧
    getHostname "not a uri at all///" = "" ∧
    (∀ url a, rfc3986Match url.data = some a → authorityMatch a = none →
      getHostname url = "") ∧
    authorityMatch [] = none := by
  refine ⟨by decide, by decide, ?_, by decide⟩
  intro url a h1 h2
  by_cases hu : url = ""
  · simp [getHostname, hu]
  · simp [getHostname, hu, h1, h2]

/-- Claim C8 witness: a URL whose authority `-` fails the authority-shape
match yields the empty string. -/
theorem getHostname_degrades_to_empty_witness :
    getHostname "//-/" = "" :=
  getHostname_degrades_to_empty.2.2.1 "//-/" ['-'] (by decide) (by decide)

/-- Claim C9: a syntactically well-formed URL whose host contains a
hyphen — a character outside `[\w.]` — makes the authority-shape match
fail, so the extractor returns the empty string. -/
theorem getHostname_hyphen_host_empty :
    getHostname "https://my-host.example/" = "" := by
  decide

/-- Claim C10: every character of any extracted hostname lies in the
`[\w.]` class — ASCII letters, digits, underscore or dot — and is in
particular none of `@`, `:`, `/`, `?`, `#`. -/
theorem getHostname_chars (url : String) :
    ∀ c ∈ (getHostname url).data,
      isWordDot c = true ∧ c ∉ (['@', ':', '/', '?', '#'] : List Char) := by
  intro c hc
  unfold getHostname at hc
  split at hc
  · simp at hc
  · split at hc
    · simp at hc
    · split at hc
      · simp at hc
      · rename_i host hm
        have hw : isWordDot c := authorityMatch_chars hm c hc
        refine ⟨hw, ?_⟩
        intro hmem
        simp only [List.mem_cons, List.not_mem_nil, or_false] at hmem
        rcases hmem with rfl | rfl | rfl | rfl | rfl <;>
          simp [isWordDot, isWordChar] at hw

/-- Claim C10 witness: the character `e` of the extracted host
`example.com` is in the `[\w.]` class and is none of the delimiters. -/
theorem getHostname_chars_witness :
    isWordDot 'e' = true ∧ 'e' ∉ (['@', ':', '/', '?', '#'] : List Char) :=
  getHostname_chars "//example.com" 'e' (by decide)

end util
